import Mathlib

/-!
Shallow embedding of the poll-ingestion pipeline of this repository
(files `fetch-data.js`, `fetch-data-2.js`, `unnamed/part_000`,
`unnamed/part_001`) and proofs about its dataset selection, scoring,
CSV parsing, gviz cell extraction, date parsing, row normalization,
classification and deduplication.

Modelling conventions:
* JS strings are Lean `String`s; case mapping and whitespace are ASCII
  (the data handled by the pipeline is ASCII CSV/JSON text).
* JS numbers are `ℚ` (the pipeline only compares, truncates and prints
  them; no claim proved here depends on binary floating point rounding).
* A parsed table cell is a `JVal`: JS `null` or a string.  Numeric cells
  are modelled by their decimal string forms (the CSV and frame paths of
  the sources only ever produce strings).
* A JS row object is an association list `List (String × JVal)`; an
  absent key is an absent entry, a present `null` is `JVal.jnull`.
* Functions named with suffix `_p0`, `_p1`, `_fd`, `_f2` are translated
  from `unnamed/part_000`, `unnamed/part_001`, `fetch-data.js` and
  `fetch-data-2.js` respectively.
-/

set_option linter.unusedVariables false

namespace Polls

/-- A JS cell value as produced by the parsers: `null` or a string. -/
inductive JVal where
  | jnull : JVal
  | jstr : String → JVal
deriving DecidableEq

/-- JS `String(v)` applied to a cell value (`String(null) = "null"`). -/
def jsToString : JVal → String
  | .jnull => "null"
  | .jstr s => s

/-- JS truthiness of a cell value: `null` and `""` are falsy. -/
def jvTruthy : JVal → Bool
  | .jnull => false
  | .jstr s => s != ""

/-- ASCII model of the JS `\s` class (space, tab, newline, carriage return). -/
def wsChar (c : Char) : Bool :=
  c == ' ' || c == '\t' || c == '\n' || c == '\r'

/-- `String.prototype.trim` on a character list. -/
def trimChars (l : List Char) : List Char :=
  ((l.dropWhile wsChar).reverse.dropWhile wsChar).reverse

/-- `String.prototype.trim`. -/
def jsTrim (s : String) : String := String.mk (trimChars s.data)

/-- `String.prototype.toLowerCase` (ASCII). -/
def jsLower (s : String) : String := String.mk (s.data.map Char.toLower)

/-- Match a literal pattern at the head of a list, returning the rest. -/
def chopLit : List Char → List Char → Option (List Char)
  | [], rest => some rest
  | _ :: _, [] => none
  | p :: ps, c :: cs => if p == c then chopLit ps cs else none

/-- JS `\w` class: ASCII letter, digit or underscore. -/
def wordChar (c : Char) : Bool := c.isAlpha || c.isDigit || c == '_'

/-- One regex-alternative test at the current position: the literal `pat`
occurs here, with a word boundary on the left (when `lb`) and/or on the
right (when `rb`).  `prev` is the character just before this position. -/
def wbHere (pat : List Char) (lb rb : Bool) (prev : Option Char) (l : List Char) : Bool :=
  match chopLit pat l with
  | some rest =>
    (!lb || (match prev with | none => true | some c => !(wordChar c))) &&
    (!rb || (match rest with | [] => true | c :: _ => !(wordChar c)))
  | none => false

/-- Scan for an occurrence of `pat` (with the requested word boundaries)
anywhere in the list. -/
def wbScan (pat : List Char) (lb rb : Bool) : Option Char → List Char → Bool
  | prev, [] => wbHere pat lb rb prev []
  | prev, c :: cs => wbHere pat lb rb prev (c :: cs) || wbScan pat lb rb (some c) cs

/-- JS `String.prototype.includes` / regex literal-substring test. -/
def strIncl (s pat : String) : Bool := wbScan pat.data false false none s.data

/-- Regex test of a literal with word boundaries, e.g. `\bdem\b`. -/
def strWB (s pat : String) (lb rb : Bool) : Bool := wbScan pat.data lb rb none s.data

/-- Replace every run of whitespace by the single character `r`
(JS `replace(/\s+/g, r)`); `prevWS` tracks whether the previous character
belonged to a whitespace run already replaced. -/
def squashWSAux (r : Char) : Bool → List Char → List Char
  | _, [] => []
  | prevWS, c :: cs =>
    if wsChar c then
      if prevWS then squashWSAux r true cs
      else r :: squashWSAux r true cs
    else c :: squashWSAux r false cs

/-- JS `replace(/\s+/g, r)` for a one-character replacement `r`. -/
def squashWS (r : Char) (l : List Char) : List Char := squashWSAux r false l

/-- `normKey` of `part_000` / `fetch-data-2.js`: trim, lowercase, collapse
whitespace to single spaces, drop characters outside `[\w %/.-]`. -/
def normKeyP0 (s : String) : String :=
  String.mk ((squashWS ' ' ((trimChars s.data).map Char.toLower)).filter
    (fun c => wordChar c || c == ' ' || c == '%' || c == '/' || c == '.' || c == '-'))

/-- `normKey` of `part_001` / `fetch-data.js`: trim, lowercase, whitespace
runs to `_`, drop characters outside `[\w_]`. -/
def normKeyU (s : String) : String :=
  String.mk ((squashWS '_' ((trimChars s.data).map Char.toLower)).filter wordChar)

/-- Split a character list on a separator, JS `split` semantics. -/
def splitOnChar (sep : Char) : List Char → List (List Char)
  | [] => [[]]
  | c :: cs =>
    if c == sep then [] :: splitOnChar sep cs
    else
      match splitOnChar sep cs with
      | [] => [[c]]
      | l :: ls => (c :: l) :: ls

/-- `replace(/\r\n/g, "\n").replace(/\r/g, "\n")`. -/
def normNewlines : List Char → List Char
  | [] => []
  | '\r' :: '\n' :: rest => '\n' :: normNewlines rest
  | '\r' :: rest => '\n' :: normNewlines rest
  | c :: rest => c :: normNewlines rest

/-- Decimal value of a digit list. -/
def digitsToNat (l : List Char) : Nat :=
  l.foldl (fun acc d => 10 * acc + (d.toNat - 48)) 0

/-- Value of a fraction part: `.d₁…dₖ` as a rational. -/
def fracVal (fp : List Char) : ℚ :=
  (digitsToNat fp : ℚ) / ((10 : ℚ) ^ fp.length)

/-- Unsigned JS decimal literal: `d+`, `d+.d*` or `.d+`; returns the value
and the unconsumed rest. -/
def parseUd (l : List Char) : Option (ℚ × List Char) :=
  let ip := l.takeWhile Char.isDigit
  let r1 := l.dropWhile Char.isDigit
  match ip, r1 with
  | [], '.' :: r2 =>
    let fp := r2.takeWhile Char.isDigit
    if fp.isEmpty then none
    else some (fracVal fp, r2.dropWhile Char.isDigit)
  | [], _ => none
  | _ :: _, '.' :: r2 =>
    some ((digitsToNat ip : ℚ) + fracVal (r2.takeWhile Char.isDigit), r2.dropWhile Char.isDigit)
  | _ :: _, _ => some ((digitsToNat ip : ℚ), r1)

/-- Ten to an integer power, as a rational. -/
def qpow10 (e : Int) : ℚ :=
  if 0 ≤ e then (10 : ℚ) ^ e.toNat else 1 / (10 : ℚ) ^ (-e).toNat

/-- Apply a JS sign prefix to a parsed magnitude. -/
def applySign (neg : Bool) (q : ℚ) : ℚ := if neg then -q else q

/-- Finish a JS number literal after `e`/`E`: optional sign then digits,
which must consume the whole rest. -/
def expFinish (neg : Bool) (m : ℚ) (r : List Char) : Option ℚ :=
  let (es, r3) : Int × List Char :=
    match r with
    | '+' :: t => (1, t)
    | '-' :: t => (-1, t)
    | t => (1, t)
  let ds := r3.takeWhile Char.isDigit
  if ds.isEmpty || !(r3.dropWhile Char.isDigit).isEmpty then none
  else some (applySign neg (m * qpow10 (es * (digitsToNat ds : Int))))

/-- Digits of a radix-`b` integer literal (used for JS `0x`/`0o`/`0b`). -/
def radixDigit (b : Nat) (c : Char) : Option Nat :=
  let n := c.toNat
  let v : Option Nat :=
    if 48 ≤ n && n ≤ 57 then some (n - 48)
    else if 97 ≤ n && n ≤ 102 then some (n - 87)
    else if 65 ≤ n && n ≤ 70 then some (n - 55)
    else none
  match v with
  | some d => if d < b then some d else none
  | none => none

/-- Whole-string radix-`b` integer literal. -/
def radixAll (b : Nat) : List Char → Option Nat
  | [] => none
  | l => l.foldl (fun acc c =>
      match acc, radixDigit b c with
      | some a, some d => some (a * b + d)
      | _, _ => none) (some 0)

/-- JS `Number(string)` restricted to finite results: whitespace-trimmed;
empty is `0`; accepts signed decimal literals with optional fraction and
exponent and unsigned `0x`/`0o`/`0b` literals; `NaN` and `±Infinity`
(non-finite) are `none` because every caller immediately null-checks
`Number.isFinite`. -/
def jsNumber (s : String) : Option ℚ :=
  let l := trimChars s.data
  if l.isEmpty then some 0
  else
    match l with
    | '0' :: 'x' :: r => (radixAll 16 r).map (fun n => (n : ℚ))
    | '0' :: 'X' :: r => (radixAll 16 r).map (fun n => (n : ℚ))
    | '0' :: 'o' :: r => (radixAll 8 r).map (fun n => (n : ℚ))
    | '0' :: 'O' :: r => (radixAll 8 r).map (fun n => (n : ℚ))
    | '0' :: 'b' :: r => (radixAll 2 r).map (fun n => (n : ℚ))
    | '0' :: 'B' :: r => (radixAll 2 r).map (fun n => (n : ℚ))
    | _ =>
      let (neg, body) : Bool × List Char :=
        match l with
        | '+' :: r => (false, r)
        | '-' :: r => (true, r)
        | r => (false, r)
      if body = "Infinity".data then none
      else
        match parseUd body with
        | none => none
        | some (m, rest) =>
          match rest with
          | [] => some (applySign neg m)
          | 'e' :: r2 => expFinish neg m r2
          | 'E' :: r2 => expFinish neg m r2
          | _ => none

/-- `safeNum` of `part_000` / `fetch-data-2.js`: trim, strip `%` and `,`,
then `Number` with a finiteness check.  (The `typeof v === "number"` fast
path of the source is vacuous here: cells are strings or null.) -/
def safeNum (v : JVal) : Option ℚ :=
  match v with
  | .jnull => none
  | .jstr s =>
    let t := jsTrim s
    if t = "" then none
    else jsNumber (String.mk (t.data.filter (fun c => !(c == '%') && !(c == ','))))

/-- Read `-?\d+(\.\d+)?` starting at a digit. -/
def readDecAt (l : List Char) : ℚ :=
  let ip := l.takeWhile Char.isDigit
  match l.dropWhile Char.isDigit with
  | '.' :: r2 =>
    let fp := r2.takeWhile Char.isDigit
    if fp.isEmpty then (digitsToNat ip : ℚ)
    else (digitsToNat ip : ℚ) + fracVal fp
  | _ => (digitsToNat ip : ℚ)

/-- Leftmost match of `-?\d+(\.\d+)?` in a character list. -/
def firstNumScan : List Char → Option ℚ
  | [] => none
  | c :: cs =>
    if c.isDigit then some (readDecAt (c :: cs))
    else if c == '-' then
      match cs with
      | d :: _ => if d.isDigit then some (-(readDecAt cs)) else firstNumScan cs
      | [] => none
    else firstNumScan cs

/-- `firstNumber` of `part_001`: stringify, trim, map U+2212 to `-`, drop
commas, then the first `-?\d+(\.\d+)?` match as a number. -/
def firstNumber (v : JVal) : Option ℚ :=
  match v with
  | .jnull => none
  | .jstr x =>
    let l := ((trimChars x.data).map (fun c => if c == '−' then '-' else c)).filter
      (fun c => !(c == ','))
    if l.isEmpty then none else firstNumScan l

/-- `isNumeric` of `part_001`. -/
def isNumericP1 (v : JVal) : Bool := (firstNumber v).isSome

/-- `toNum` of `part_001`. -/
def toNumP1 (v : JVal) : Option ℚ := firstNumber v

/-- Full-string unsigned `\d+(\.\d+)?` match with its value. -/
def decUnsignedFull (b : List Char) : Option ℚ :=
  let ip := b.takeWhile Char.isDigit
  if ip.isEmpty then none
  else
    match b.dropWhile Char.isDigit with
    | [] => some ((digitsToNat ip : ℚ))
    | '.' :: r2 =>
      let fp := r2.takeWhile Char.isDigit
      if fp.isEmpty || !(r2.dropWhile Char.isDigit).isEmpty then none
      else some ((digitsToNat ip : ℚ) + fracVal fp)
    | _ => none

/-- Full-string `-?\d+(\.\d+)?` match with its value. -/
def decFullMatch (l : List Char) : Option ℚ :=
  match l with
  | '-' :: r => (decUnsignedFull r).map (fun q => -q)
  | r => decUnsignedFull r

/-- `String(x).trim().replace(/[%+,]/g, "")` of `fetch-data.js`. -/
def fdStrip (v : JVal) : List Char :=
  (trimChars (jsToString v).data).filter (fun c => !(c == '%') && !(c == '+') && !(c == ','))

/-- `isNumeric` of `fetch-data.js`: null is not numeric; otherwise the
stripped string must be a full `-?\d+(\.\d+)?` match. -/
def isNumericFd (v : JVal) : Bool :=
  match v with
  | .jnull => false
  | .jstr _ => let l := fdStrip v; !l.isEmpty && (decFullMatch l).isSome

/-- `toNum` of `fetch-data.js` (`parseFloat` of the stripped string, which
on a full decimal match is its value). -/
def toNumFd (v : JVal) : Option ℚ :=
  if isNumericFd v then decFullMatch (fdStrip v) else none

/-- JS `parseInt(s, 10)`: skip whitespace, optional sign, leading digits. -/
def jsParseInt (s : String) : Option Int :=
  let l := s.data.dropWhile wsChar
  let (sgn, b) : Int × List Char :=
    match l with
    | '+' :: r => (1, r)
    | '-' :: r => (-1, r)
    | r => (1, r)
  let ds := b.takeWhile Char.isDigit
  if ds.isEmpty then none else some (sgn * (digitsToNat ds : Int))

/-- `safeInt` of `part_000`: first `\d[\d,]*` run, commas stripped,
truncated. -/
def safeIntP0 (v : JVal) : Option Int :=
  match v with
  | .jnull => none
  | .jstr s =>
    let t := trimChars s.data
    if t.isEmpty then none else safeIntScan t
where
  safeIntScan : List Char → Option Int
    | [] => none
    | c :: cs =>
      if c.isDigit then
        some (digitsToNat (((c :: cs).takeWhile (fun ch => ch.isDigit || ch == ',')).filter
          Char.isDigit) : Int)
      else safeIntScan cs

/-- Truncation toward zero on rationals (JS `Math.trunc`). -/
def qTrunc (q : ℚ) : Int := if q < 0 then -(Int.floor (-q)) else Int.floor q

/-- `safeInt` of `part_001` (`firstNumber` then truncate). -/
def safeIntP1 (v : JVal) : Option Int := (firstNumber v).map qTrunc

/-- Gregorian leap year. -/
def isLeap (y : Int) : Bool :=
  y % 4 == 0 && (y % 100 != 0 || y % 400 == 0)

/-- Days in a month (1-based). -/
def daysInMonth (y : Int) (m : Int) : Int :=
  if m == 2 then (if isLeap y then 29 else 28)
  else if m == 4 || m == 6 || m == 9 || m == 11 then 30
  else 31

/-- Days since the Unix epoch of a civil date (standard civil-calendar
conversion, floor division). -/
def daysFromCivil (y m d : Int) : Int :=
  let y2 := if m ≤ 2 then y - 1 else y
  let era := Int.fdiv y2 400
  let yoe := y2 - era * 400
  let mp := Int.fmod (m + 9) 12
  let doy := ((153 * mp + 2).fdiv 5) + d - 1
  let doe := yoe * 365 + yoe.fdiv 4 - yoe.fdiv 100 + doy
  era * 146097 + doe - 719468

/-- Civil date from days since the Unix epoch. -/
def civilFromDays (z0 : Int) : Int × Int × Int :=
  let z := z0 + 719468
  let era := z.fdiv 146097
  let doe := z - era * 146097
  let yoe := (doe - doe.fdiv 1460 + doe.fdiv 36524 - doe.fdiv 146096).fdiv 365
  let y := yoe + era * 400
  let doy := doe - (365 * yoe + yoe.fdiv 4 - yoe.fdiv 100)
  let mp := (5 * doy + 2).fdiv 153
  let d := doy - (153 * mp + 2).fdiv 5 + 1
  let m := mp + (if mp < 10 then 3 else -9)
  (y + (if m ≤ 2 then 1 else 0), m, d)

/-- JS `Date.UTC(yy, mi, dd)` day computation: month index and day are
normalized onto the civil calendar (overflowing months roll the year,
overflowing days roll the month), returning the resulting civil date. -/
def dateUTCNorm (yy mi dd : Int) : Int × Int × Int :=
  let ym := yy + mi.fdiv 12
  let mn := Int.fmod mi 12
  civilFromDays (daysFromCivil ym (mn + 1) 1 + (dd - 1))

/-- Decimal digits of a natural number. -/
def natChars (n : Nat) : List Char := Nat.toDigits 10 n

/-- Left-pad a digit list with zeros to width `k`. -/
def padZeros (k : Nat) (l : List Char) : List Char :=
  List.replicate (k - l.length) '0' ++ l

/-- Two-digit field of `Date.prototype.toISOString` /
`String(n).padStart(2, "0")`. -/
def pad2i (n : Int) : List Char := padZeros 2 (natChars n.toNat)

/-- Year field of `toISOString`: four digits for 0..9999, otherwise the
expanded signed six-digit form. -/
def yearISO (y : Int) : List Char :=
  if 0 ≤ y && y ≤ 9999 then padZeros 4 (natChars y.toNat)
  else if 9999 < y then '+' :: padZeros 6 (natChars y.toNat)
  else '-' :: padZeros 6 (natChars (-y).toNat)

/-- `d.toISOString().slice(0, 10)` for a UTC-midnight date. -/
def toISOSlice10 (y m d : Int) : String :=
  String.mk ((yearISO y ++ '-' :: pad2i m ++ '-' :: pad2i d).take 10)

/-- Shape test for `^\d{4}-\d{2}-\d{2}$` (no range validation, as in the
sources). -/
def isISOShape : List Char → Bool
  | [y1, y2, y3, y4, '-', m1, m2, '-', d1, d2] =>
    y1.isDigit && y2.isDigit && y3.isDigit && y4.isDigit &&
    m1.isDigit && m2.isDigit && d1.isDigit && d2.isDigit
  | _ => false

/-- Full match of `^(\d{1,2})\/(\d{1,2})\/(\d{4})$`, returning the three
digit groups. -/
def matchMDY (l : List Char) : Option (List Char × List Char × List Char) :=
  let mp := l.takeWhile Char.isDigit
  if mp.length < 1 || 2 < mp.length then none
  else
    match l.dropWhile Char.isDigit with
    | '/' :: r2 =>
      let dp := r2.takeWhile Char.isDigit
      if dp.length < 1 || 2 < dp.length then none
      else
        match r2.dropWhile Char.isDigit with
        | '/' :: r4 =>
          let yp := r4.takeWhile Char.isDigit
          if yp.length == 4 && (r4.dropWhile Char.isDigit).isEmpty then some (mp, dp, yp)
          else none
        | _ => none
    | _ => none

/-- Modelled from the spec: the "native date-string parse" of §4.6 (Row
Normalizer) is the JS host `new Date(string)` parser, which is not part of
this repository.  It is modelled by its behaviour on the shapes the
pipeline relies on: a strict `YYYY-MM-DD` string denoting a valid calendar
date parses to that date at UTC midnight (as in Node), and strings that are
not of that shape — in particular text containing no date, such as
`"not a date"` — are rejected.  No theorem below depends on this model
beyond rejection of non-date text. -/
def jsDateParse (s : String) : Option (Int × Int × Int) :=
  match s.data with
  | [y1, y2, y3, y4, '-', m1, m2, '-', d1, d2] =>
    if (isISOShape [y1, y2, y3, y4, '-', m1, m2, '-', d1, d2]) then
      let y : Int := digitsToNat [y1, y2, y3, y4]
      let m : Int := digitsToNat [m1, m2]
      let d : Int := digitsToNat [d1, d2]
      if 1 ≤ m && m ≤ 12 && 1 ≤ d && d ≤ daysInMonth y m then some (y, m, d) else none
    else none
  | _ => none

/-- `parseDateToISO` of `part_000`: native parse first (then
`toISOString().slice(0, 10)`), then `M/D/YYYY` via `Date.UTC`, then the
`YYYY-MM-DD` shape returned as-is. -/
def parseDateToISOP0 (v : JVal) : Option String :=
  match v with
  | .jnull => none
  | .jstr s0 =>
    let s := jsTrim s0
    if s = "" then none
    else
      match jsDateParse s with
      | some (y, m, d) => some (toISOSlice10 y m d)
      | none =>
        match matchMDY s.data with
        | some (mp, dp, yp) =>
          let ymd := dateUTCNorm (digitsToNat yp : Int) ((digitsToNat mp : Int) - 1)
            (digitsToNat dp : Int)
          some (toISOSlice10 ymd.1 ymd.2.1 ymd.2.2)
        | none => if isISOShape s.data then some s else none

/-- `toISODateMaybe` of `fetch-data.js` (observationally identical to the
`part_001` copy): falsy input is null; then the `YYYY-MM-DD` shape is
returned as-is; then `M/D/YYYY` is zero-padded; then the native parse is
formatted from its UTC fields. -/
def toISODateMaybe (v : JVal) : Option String :=
  match v with
  | .jnull => none
  | .jstr s0 =>
    if s0 = "" then none
    else
      let t := jsTrim s0
      if isISOShape t.data then some t
      else
        match matchMDY t.data with
        | some (mp, dp, yp) =>
          some (String.mk (yp ++ '-' :: padZeros 2 mp ++ '-' :: padZeros 2 dp))
        | none =>
          match jsDateParse t with
          | some (y, m, d) =>
            some (String.mk (natChars y.toNat ++ '-' :: pad2i m ++ '-' :: pad2i d))
          | none => none

/-- The engine's uniform in-memory table: ordered column names and ordered
rows of cells (the `format` tag of the sources is not material to any
property proved here). -/
structure Dataset where
  cols : List String
  rows : List (List JVal)
deriving DecidableEq

/-- One named numeric response of a canonical record. -/
structure Answer where
  choice : String
  pct : ℚ
deriving DecidableEq

/-- A canonical poll record; the union of the fields produced by the four
row normalizers (fields a given normalizer does not set keep their
defaults). -/
structure Poll where
  pollster : JVal := .jnull
  start_date : Option String := none
  end_date : Option String := none
  sample_size : Option Int := none
  population : JVal := .jnull
  sponsors : JVal := .jnull
  url : JVal := .jnull
  race : JVal := .jnull
  state : JVal := .jnull
  district : JVal := .jnull
  answers : List Answer := []
deriving DecidableEq

/-- `looksLikeURL`: `^https?:\/\//i` on the stringified, trimmed value. -/
def jvLooksLikeURL (v : JVal) : Bool :=
  let t := (trimChars (jsToString v).data).map Char.toLower
  (chopLit "http://".data t).isSome || (chopLit "https://".data t).isSome

/-- `isProbablyJavascript` (identical in `part_000` and `part_001`): on the
first 4000 characters, a line-start `function`/`var`/`let`/`const`
declaration, a browser-global reference, or a source-map marker. -/
def isProbablyJavascript (text : String) : Bool :=
  let t := text.data.take 4000
  let tl := t.map Char.toLower
  jsDeclScan (tl.dropWhile wsChar) || jsDeclAfterNl tl ||
    strIncl (String.mk tl) "window." || strIncl (String.mk tl) "document." ||
    strIncl (String.mk tl) "datalayer" || strIncl (String.mk tl) "gtag(" ||
    strIncl (String.mk tl) "sourcemappingurl="
where
  /-- keyword followed by one whitespace character, at this position. -/
  kwHere (kw : String) (l : List Char) : Bool :=
    match chopLit kw.data l with
    | some (c :: _) => wsChar c
    | _ => false
  /-- `\s*(function|var|let|const)\s` at this position (input lowered). -/
  jsDeclHere (l : List Char) : Bool :=
    kwHere "function" l || kwHere "var" l || kwHere "let" l || kwHere "const" l
  /-- declaration matched right after the `\s*` at some position. -/
  jsDeclScan (l : List Char) : Bool := jsDeclHere l
  /-- `(^|\n)\s*(function|var|let|const)\s`: after every newline. -/
  jsDeclAfterNl : List Char → Bool
    | [] => false
    | c :: cs => (c == '\n' && jsDeclScan (cs.dropWhile wsChar)) || jsDeclAfterNl cs

/-- `splitCSVLine` of `parseCSVStrict` (`part_000`): quote-aware field
splitter with doubled-quote escaping; fields are trimmed. -/
def splitCSVLine (line : List Char) : List String :=
  (splitCSVAux false [] line).map (fun f => jsTrim (String.mk f))
where
  splitCSVAux : Bool → List Char → List Char → List (List Char)
    | _, cur, [] => [cur.reverse]
    | true, cur, '"' :: '"' :: rest => splitCSVAux true ('"' :: cur) rest
    | true, cur, '"' :: rest => splitCSVAux false cur rest
    | true, cur, c :: rest => splitCSVAux true (c :: cur) rest
    | false, cur, '"' :: rest => splitCSVAux true cur rest
    | false, cur, ',' :: rest => cur.reverse :: splitCSVAux false [] rest
    | false, cur, c :: rest => splitCSVAux false (c :: cur) rest

/-- The non-blank lines of the input after newline normalization
(`parseCSVStrict`, `part_000`). -/
def csvNonEmptyLines (text : String) : List (List Char) :=
  (splitOnChar '\n' (normNewlines text.data)).filter
    (fun l => 0 < (trimChars l).length)

/-- The header row of `parseCSVStrict`. -/
def csvHeader (text : String) : List String :=
  splitCSVLine ((csvNonEmptyLines text).headD [])

/-- The sampled data rows (`nonEmpty.slice(1, 6)`) of `parseCSVStrict`. -/
def csvTestRows (text : String) : List (List String) :=
  (((csvNonEmptyLines text).drop 1).take 5).map splitCSVLine

/-- `parseCSVStrict` of `part_000`: reject script-like text, require at
least 6 non-blank lines, a header of at least 5 fields, and each of the
next up-to-5 rows to satisfy
`r.length === header.length || r.length >= header.length - 1`. -/
def parseCSVStrict (text : String) : Option Dataset :=
  if isProbablyJavascript text then none
  else
    let nonEmpty := csvNonEmptyLines text
    if nonEmpty.length < 6 then none
    else
      let header := csvHeader text
      if header.length < 5 then none
      else
        let ok := (csvTestRows text).all
          (fun r => r.length == header.length || header.length - 1 ≤ r.length)
        if !ok then none
        else some ⟨header, (nonEmpty.drop 1).map (fun l => (splitCSVLine l).map .jstr)⟩

/-- A gviz table cell: optional raw value `v` and optional formatted value
`f` (an absent field is `none`, a JSON `null` field is `some .jnull`). -/
structure GvizCell where
  v : Option JVal := none
  f : Option JVal := none
deriving DecidableEq

/-- Cell extraction of `parseGviz` in `part_000` / `fetch-data-2.js`:
`!cell` is null; otherwise `cell.v` if present (even when null), else
`cell.f` if present, else null — the raw value is preferred. -/
def gvizCellValueP0 (c : Option GvizCell) : JVal :=
  match c with
  | none => .jnull
  | some cell =>
    match cell.v with
    | some x => x
    | none =>
      match cell.f with
      | some y => y
      | none => .jnull

/-- Cell extraction of the gviz branch of `tryParseDataset` in `part_001`
(`cell ? (cell.f ?? cell.v ?? null) : null`): the formatted value is
preferred; the raw value is used only when `f` is absent or null. -/
def gvizCellValueP1 (c : Option GvizCell) : JVal :=
  match c with
  | none => .jnull
  | some cell =>
    match cell.f with
    | some (.jstr s) => .jstr s
    | _ =>
      match cell.v with
      | some (.jstr s) => .jstr s
      | _ => .jnull

/-- Cell extraction of the gviz branch of `tryParseCandidate` in
`fetch-data.js` (`cell ? (cell.f ?? cell.v ?? "") : ""`): like `part_001`
but with `""` as the final fallback. -/
def gvizCellValueFd (c : Option GvizCell) : JVal :=
  match c with
  | none => .jstr ""
  | some cell =>
    match cell.f with
    | some (.jstr s) => .jstr s
    | _ =>
      match cell.v with
      | some (.jstr s) => .jstr s
      | _ => .jstr ""

/-- Signal patterns of `scoreDataset` in `part_000` (each is a regex of
literal alternatives; `n\b` is `n` at a right word boundary). -/
def signalsP0 : List (String → Bool) :=
  [fun c => strIncl c "pollster" || strIncl c "firm" || strIncl c "polling" ||
      strIncl c "organization",
   fun c => strIncl c "start" || strIncl c "field" || strIncl c "begin" ||
      strIncl c "from" || strIncl c "end" || strIncl c "finish" || strIncl c "to",
   fun c => strIncl c "sample" || strIncl c "respond" || strIncl c "sample size" ||
      strWB c "n" false true,
   fun c => strIncl c "race" || strIncl c "contest" || strIncl c "office" ||
      strIncl c "seat" || strIncl c "matchup" || strIncl c "state" || strIncl c "district",
   fun c => strIncl c "approve" || strIncl c "disapprove" || strIncl c "dem" ||
      strIncl c "rep" || strIncl c "gop" || strIncl c "margin" || strIncl c "spread" ||
      strIncl c "trump" || strIncl c "biden" || strIncl c "harris"]

/-- The analytics sentinel of `scoreDataset` (`part_000`):
`/gtag|datalayer|analytics|tag manager/` on the joined normalized names. -/
def analyticsColsP0 (cols : List String) : Bool :=
  let joined := String.intercalate " " (cols.map normKeyP0)
  strIncl joined "gtag" || strIncl joined "datalayer" || strIncl joined "analytics" ||
    strIncl joined "tag manager"

/-- The signal hit count of `scoreDataset` (`part_000`): one per pattern
matching at least one normalized column name. -/
def hitCountP0 (cols : List String) : Nat :=
  signalsP0.countP (fun sig => (cols.map normKeyP0).any sig)

/-- `scoreDataset` of `part_000` (with the default configuration
`MIN_ROWS = 30`): `-1` for an empty table, `-10` for analytics column
names, otherwise 6 per matched signal plus capped row and column bonuses
minus a 20-point small-table penalty. -/
def scoreDatasetP0 (ds : Dataset) : ℚ :=
  if ds.cols.isEmpty || ds.rows.isEmpty then -1
  else if analyticsColsP0 ds.cols then -10
  else
    (hitCountP0 ds.cols : ℚ) * 6 + ((min ds.rows.length 400 : ℕ) : ℚ) / 12 +
      ((min ds.cols.length 80 : ℕ) : ℚ) / 8 -
      (if ds.rows.length < 30 then 20 else 0)

/-- The `want` patterns of `scoreDataset` in `fetch-data-2.js`. -/
def signalsF2 : List (String → Bool) :=
  [fun c => strIncl c "pollster" || strIncl c "firm" || strIncl c "polling",
   fun c => strIncl c "start" || strIncl c "field" || strIncl c "begin",
   fun c => strIncl c "end" || strIncl c "finish",
   fun c => strIncl c "sample" || strWB c "n" false true || strIncl c "respond",
   fun c => strIncl c "approve" || strIncl c "disapprove" || strIncl c "dem" ||
      strIncl c "rep" || strIncl c "gop" || strIncl c "ind" || strIncl c "other",
   fun c => strIncl c "race" || strIncl c "state" || strIncl c "district" ||
      strIncl c "seat" || strIncl c "office" || strIncl c "contest"]

/-- `scoreDataset` of `fetch-data-2.js`: 2 per matched pattern plus capped
row and column bonuses; no analytics penalty and no small-table penalty
(the source's `-1` guard only fires on JS `null` fields, which the
embedding cannot represent). -/
def scoreDatasetF2 (ds : Dataset) : ℚ :=
  let colsN := ds.cols.map normKeyP0
  (signalsF2.countP (fun w => colsN.any w) : ℚ) * 2 +
    ((min ds.rows.length 200 : ℕ) : ℚ) / 10 +
    ((min ds.cols.length 60 : ℕ) : ℚ) / 10

/-- Comparator model for `sort((a, b) => b._score - a._score)`: `x` stays
in front of `y` exactly when its score is at least `y`'s (JS array sort is
stable, so ties keep encounter order). -/
def keepDesc {α : Type} (x y : α × ℚ) : Bool := y.2 ≤ x.2

/-- Stable insertion respecting `keep`. -/
def insertStable {α : Type} (keep : α → α → Bool) (x : α) : List α → List α
  | [] => [x]
  | y :: ys => if keep x y then x :: y :: ys else y :: insertStable keep x ys

/-- Stable sort (model of JS `Array.prototype.sort`). -/
def sortStable {α : Type} (keep : α → α → Bool) : List α → List α
  | [] => []
  | x :: xs => insertStable keep x (sortStable keep xs)

/-- `pickDataset` of `part_000` (with the default `MIN_SCORE = 14`): score
every candidate, sort descending (stable), take the head, and gate it on
the minimum score. -/
def pickDatasetP0 (l : List Dataset) : Option (Dataset × ℚ) :=
  match (sortStable keepDesc (l.map (fun d => (d, scoreDatasetP0 d)))).head? with
  | none => none
  | some b => if b.2 < 14 then none else some b

/-- `pickDataset` of `fetch-data-2.js`: score, sort descending (stable),
and return the head — there is no minimum-score gate. -/
def pickDatasetF2 (l : List Dataset) : Option (Dataset × ℚ) :=
  (sortStable keepDesc (l.map (fun d => (d, scoreDatasetF2 d)))).head?

/-- The meta-role column indices of `extractPollBuckets` (`part_000`);
`-1` means unassigned, as returned by `findIdx`. -/
structure MetaColsP0 where
  pollsterIdx : Int := -1
  sponsorIdx : Int := -1
  startIdx : Int := -1
  endIdx : Int := -1
  sampleIdx : Int := -1
  populationIdx : Int := -1
  urlIdx : Int := -1
  raceIdx : Int := -1
deriving DecidableEq

/-- A qualified answer column of `extractPollBuckets`. -/
structure AnswerCol where
  idx : Nat
  name : String
deriving DecidableEq

/-- The `get` helper of `normalizePollRow` (`part_000`): the cell at a
meta index, or null when the index is unassigned or out of range. -/
def getCell (row : List JVal) (i : Int) : JVal :=
  if 0 ≤ i then row.getD i.toNat .jnull else .jnull

/-- The answer-collection loop of `normalizePollRow` (`part_000`): one
`{choice, pct}` per answer column whose cell parses with `safeNum`. -/
def answersOfP0 (row : List JVal) (answerCols : List AnswerCol) : List Answer :=
  answerCols.filterMap (fun a => (safeNum (getCell row a.idx)).map (fun v => ⟨a.name, v⟩))

/-- `normalizePollRow` of `part_000`: resolve the meta cells, parse dates,
sample size and URL defensively, collect answers, and discard the row when
it has neither a (truthy) pollster cell nor any parsed answer; the `race`
field is attached trimmed and only when truthy. -/
def normalizePollRow (row : List JVal) (m : MetaColsP0) (answerCols : List AnswerCol) :
    Option Poll :=
  let pollster := getCell row m.pollsterIdx
  let sponsor := getCell row m.sponsorIdx
  let start := parseDateToISOP0 (getCell row m.startIdx)
  let endd := parseDateToISOP0 (getCell row m.endIdx)
  let sample := safeIntP0 (getCell row m.sampleIdx)
  let pop := getCell row m.populationIdx
  let url := getCell row m.urlIdx
  let race := getCell row m.raceIdx
  let answers := answersOfP0 row answerCols
  if !(jvTruthy pollster) && answers.isEmpty then none
  else some
    { start_date := start
      end_date := endd
      pollster := pollster
      sample_size := sample
      population := pop
      sponsors := sponsor
      url := if jvLooksLikeURL url then url else .jnull
      race := if jvTruthy race then .jstr (jsTrim (jsToString race)) else .jnull
      answers := answers }

/-- Association-list lookup modelling JS object property access. -/
def rowGet (row : List (String × JVal)) (k : String) : Option JVal :=
  (row.find? (fun kv => kv.1 == k)).map (fun kv => kv.2)

/-- The `normKey`-equality fallback within one `pickFirst` iteration:
the value under the first row key sharing the requested key's `normKey`,
when it stringifies to something non-blank. -/
def pickNormHit (row : List (String × JVal)) (k : String) : Option JVal :=
  match row.find? (fun kv => normKeyU kv.1 == normKeyU k) with
  | some kv => if jsTrim (jsToString kv.2) != "" then some kv.2 else none
  | none => none

/-- One `pickFirst` iteration: the value under the exact key when its
stringified form trims non-empty (note `String(null) = "null"` passes this
test), else the `normKey` fallback. -/
def pickFirstKey (row : List (String × JVal)) (k : String) : Option JVal :=
  match rowGet row k with
  | some v =>
    if jsTrim (jsToString v) != "" then some v
    else pickNormHit row k
  | none => pickNormHit row k

/-- `pickFirst` (identical in `fetch-data.js` and `part_001`): the first
key whose iteration produces a value wins; `none` models the final JS
`null`. -/
def pickFirst (row : List (String × JVal)) : List String → Option JVal
  | [] => none
  | k :: ks =>
    match pickFirstKey row k with
    | some v => some v
    | none => pickFirst row ks

/-- `pickFirst(...) ?? null` flattened to a `JVal`. -/
def pickFirstJV (row : List (String × JVal)) (ks : List String) : JVal :=
  (pickFirst row ks).getD .jnull

/-- JS `||` on nullable date strings (the empty string is falsy). -/
def jsOrStr (a b : Option String) : Option String :=
  match a with
  | some s => if s = "" then b else some s
  | none => b

/-- JS `||` on cell values. -/
def jvOr (a b : JVal) : JVal := if jvTruthy a then a else b

/-- `pickFirst` key lists of `normalizeRowToPoll` (`part_001`). -/
def pollsterKeysP1 : List String :=
  ["pollster", "Pollster", "Pollster(s)", "pollster_name", "firm", "organization"]

def startKeysA : List String := ["start_date", "Start Date", "start", "field_start", "date_start"]

def startKeysB : List String := ["start", "Start"]

def endKeysA : List String := ["end_date", "End Date", "end", "field_end", "date_end"]

def endKeysB : List String := ["end", "End"]

def sampleKeys : List String := ["sample_size", "Sample", "Sample Size", "n", "N", "sample"]

def urlKeysP1 : List String := ["url", "link", "source", "poll_url"]

def raceKeysP1 : List String :=
  ["race", "Race", "contest", "Contest", "office", "Office", "seat", "Seat", "matchup"]

/-- The `META` key set of `normalizeRowToPoll` (`part_001`). -/
def metaSetP1 : List String :=
  ["pollster", "pollster_name", "firm", "organization",
   "start_date", "end_date", "start", "end", "date", "released", "release_date",
   "sample_size", "sample", "samplesize", "n",
   "url", "link", "source", "poll", "poll_url",
   "race", "contest", "office", "cycle", "seat", "matchup",
   "notes", "population", "pop", "method", "mode",
   "margin", "spread", "moe", "error", "net", "lead"]

/-- The margin-like column skip of both `normalizeRowToPoll` variants. -/
def marginLike (kl : String) : Bool :=
  strIncl kl "margin" || strIncl kl "spread" || strIncl kl "moe" ||
    strIncl kl "error" || strIncl kl "net" || strIncl kl "lead"

/-- The answer-label normalization shared by `normalizeRowToPoll` in
`part_001` and `fetch-data.js` (their branch conditions are identical). -/
def answerChoiceFor (k : String) : String :=
  let nk := normKeyU k
  let kl := jsLower k
  if strIncl kl "approve" && !(strIncl kl "dis") then "Approve"
  else if strIncl kl "disapprove" || (strIncl kl "dis" && strIncl kl "approve") then
    "Disapprove"
  else if nk == "dem" || strIncl kl "democrat" || nk == "dems" then "Dem"
  else if nk == "gop" || nk == "rep" || strIncl kl "republican" || nk == "reps" then "Rep"
  else jsTrim k

/-- The answer-collection loop of `normalizeRowToPoll` (`part_001`). -/
def answersLoopP1 : List (String × JVal) → List Answer
  | [] => []
  | (k, v) :: rest =>
    if normKeyU k ∈ metaSetP1 then answersLoopP1 rest
    else if marginLike (jsLower k) then answersLoopP1 rest
    else
      match toNumP1 v with
      | none => answersLoopP1 rest
      | some pct => ⟨answerChoiceFor k, pct⟩ :: answersLoopP1 rest

/-- The `order` sort key of `normalizeRowToPoll` (`part_001`). -/
def answerOrderP1 (a : Answer) : Nat :=
  let c := jsLower a.choice
  if c == "approve" then 0
  else if c == "disapprove" then 1
  else if c == "dem" then 2
  else if c == "rep" || c == "gop" then 3
  else 10

/-- Stable ascending comparator for `answers.sort((a, b) => order(a) - order(b))`. -/
def keepAscP1 (a b : Answer) : Bool := answerOrderP1 a ≤ answerOrderP1 b

/-- `normalizeRowToPoll` of `part_001`: pick meta fields by key lists,
fall end dates back to start dates, keep the URL only in `http(s)` shape,
collect and sort answers, and discard the row when no answer parsed. -/
def normalizeRowToPollP1 (row : List (String × JVal)) (raceHint : JVal) : Option Poll :=
  let pollster := pickFirstJV row pollsterKeysP1
  let start_date := jsOrStr (toISODateMaybe (pickFirstJV row startKeysA))
    (jsOrStr (toISODateMaybe (pickFirstJV row startKeysB)) none)
  let end_date := jsOrStr (toISODateMaybe (pickFirstJV row endKeysA))
    (jsOrStr (toISODateMaybe (pickFirstJV row endKeysB)) (jsOrStr start_date none))
  let sampleRaw := pickFirstJV row sampleKeys
  let sample_size := if sampleRaw != .jnull then safeIntP1 sampleRaw else none
  let url := pickFirstJV row urlKeysP1
  let race := jvOr (pickFirstJV row raceKeysP1) (jvOr raceHint .jnull)
  let answers := answersLoopP1 row
  if answers.isEmpty then none
  else some
    { pollster := pollster
      start_date := start_date
      end_date := end_date
      sample_size := sample_size
      url := if jvLooksLikeURL url then url else .jnull
      race := race
      answers := sortStable keepAscP1 answers }

/-- Key lists and `META` set of `normalizeRowToPoll` (`fetch-data.js`). -/
def pollsterKeysFd : List String := ["pollster", "Pollster", "Pollster(s)", "pollster_name"]

def urlKeysFd : List String := ["url", "link", "source", "Poll", "poll_url"]

def raceKeysFd : List String :=
  ["race", "Race", "contest", "Contest", "state", "State", "district", "District"]

def metaSetFd : List String :=
  ["pollster", "pollster_name",
   "start_date", "end_date", "date", "released", "release_date",
   "sample_size", "sample", "samplesize", "n",
   "url", "link", "source", "poll",
   "race", "contest", "office", "cycle",
   "notes", "population", "pop", "method", "mode"]

/-- The answer-collection loop of `normalizeRowToPoll` (`fetch-data.js`):
like `part_001`'s but gated on its stricter `isNumeric` and without the
margin-column skip. -/
def answersLoopFd : List (String × JVal) → List Answer
  | [] => []
  | (k, v) :: rest =>
    if normKeyU k ∈ metaSetFd then answersLoopFd rest
    else if !(isNumericFd v) then answersLoopFd rest
    else
      match toNumFd v with
      | none => answersLoopFd rest
      | some pct => ⟨answerChoiceFor k, pct⟩ :: answersLoopFd rest

/-- The `orderKey` of `normalizeRowToPoll` (`fetch-data.js`). -/
def answerOrderFd (a : Answer) : Nat :=
  let c := jsLower a.choice
  if c == "approve" then 0
  else if c == "disapprove" then 1
  else if c == "dem" then 2
  else if c == "rep" then 3
  else 10

def keepAscFd (a b : Answer) : Bool := answerOrderFd a ≤ answerOrderFd b

/-- `normalizeRowToPoll` of `fetch-data.js`: as in `part_001` but with its
own key lists, `parseInt` sample parsing, a raw (ungated) `url` field, and
discard exactly when no answer parsed. -/
def normalizeRowToPollFd (row : List (String × JVal)) (raceHint : JVal) : Option Poll :=
  let pollster := pickFirstJV row pollsterKeysFd
  let start_date := jsOrStr (toISODateMaybe (pickFirstJV row startKeysA))
    (jsOrStr (toISODateMaybe (pickFirstJV row startKeysB)) none)
  let end_date := jsOrStr (toISODateMaybe (pickFirstJV row endKeysA))
    (jsOrStr (toISODateMaybe (pickFirstJV row endKeysB)) (jsOrStr start_date none))
  let sampleRaw := pickFirstJV row sampleKeys
  let sample_size :=
    if jvTruthy sampleRaw && isNumericFd sampleRaw then
      jsParseInt (String.mk ((jsToString sampleRaw).data.filter (fun c => !(c == ','))))
    else none
  let url := pickFirstJV row urlKeysFd
  let race := jvOr (pickFirstJV row raceKeysFd) (jvOr raceHint .jnull)
  let answers := answersLoopFd row
  if answers.isEmpty then none
  else some
    { pollster := pollster
      start_date := start_date
      end_date := end_date
      sample_size := sample_size
      url := url
      race := race
      answers := sortStable keepAscFd answers }

/-- `String(p.race ?? "")` lowered, as used by `bucketKeyFor`. -/
def raceLower (p : Poll) : String :=
  jsLower (match p.race with | .jnull => "" | .jstr s => s)

/-- Step 1 test of `bucketKeyFor` (`part_000`):
`/generic/.test(race) && /(ballot|dem|gop|democrat|republican)/.test(race)`. -/
def raceGenericP0 (p : Poll) : Bool :=
  strIncl (raceLower p) "generic" &&
    (strIncl (raceLower p) "ballot" || strIncl (raceLower p) "dem" ||
     strIncl (raceLower p) "gop" || strIncl (raceLower p) "democrat" ||
     strIncl (raceLower p) "republican")

/-- Step 2 test of `bucketKeyFor` (`part_000`):
`/approval/.test(race) && /(trump|president)/.test(race)`. -/
def raceApprovalP0 (p : Poll) : Bool :=
  strIncl (raceLower p) "approval" &&
    (strIncl (raceLower p) "trump" || strIncl (raceLower p) "president")

/-- The lowercased choice labels of a record. -/
def choicesLower (p : Poll) : List String := p.answers.map (fun a => jsLower a.choice)

/-- `choices.some(c => /approve/.test(c))`. -/
def hasApproveChoice (p : Poll) : Bool := (choicesLower p).any (fun c => strIncl c "approve")

/-- `choices.some(c => /disapprove/.test(c))`. -/
def hasDisapproveChoice (p : Poll) : Bool :=
  (choicesLower p).any (fun c => strIncl c "disapprove")

/-- `choices.some(c => /\bdem\b|democrat|\bd\b/.test(c))`. -/
def hasDemChoice (p : Poll) : Bool :=
  (choicesLower p).any (fun c =>
    strWB c "dem" true true || strIncl c "democrat" || strWB c "d" true true)

/-- `choices.some(c => /\bgop\b|rep\b|republican|\br\b/.test(c))`. -/
def hasGopChoice (p : Poll) : Bool :=
  (choicesLower p).any (fun c =>
    strWB c "gop" true true || strWB c "rep" false true || strIncl c "republican" ||
      strWB c "r" true true)

/-- `bucketKeyFor` of `extractPollBuckets` (`part_000`; the
`fetch-data-2.js` copy differs only in its step-1/step-4 vocabulary):
race-label tests first, then choice-label shape tests, first match wins. -/
def bucketKeyFor (p : Poll) : String :=
  if raceGenericP0 p then "generic"
  else if raceApprovalP0 p then "approval"
  else if hasApproveChoice p && hasDisapproveChoice p then "approval"
  else if hasDemChoice p && hasGopChoice p then "generic"
  else "other"

/-- `classifyPoll` of `part_001`: looks only at exact lowercased choice
labels; approval requires approve and disapprove present and no Dem/Rep
label, generic ballot requires Dem and Rep present and no approval label;
everything else is a race. -/
def classifyPoll (p : Poll) : String :=
  let choices := choicesLower p
  let hasApprove := choices.contains "approve"
  let hasDis := choices.contains "disapprove"
  let hasDem := choices.contains "dem"
  let hasRep := choices.contains "rep" || choices.contains "gop"
  if hasApprove && hasDis && !hasDem && !hasRep then "approval"
  else if hasDem && hasRep && !hasApprove && !hasDis then "genericBallot"
  else "race"

/-- Template-string piece `${v || ""}` for a cell value. -/
def jvOrEmpty (v : JVal) : String := if jvTruthy v then jsToString v else ""

/-- The dedup key of `part_001`:
`` `${pollster || ""}|${end_date || ""}|${race || ""}|${answers.map(a => a.choice).join(",")}`.toLowerCase() ``. -/
def dedupKeyP1 (p : Poll) : String :=
  jsLower (jvOrEmpty p.pollster ++ "|" ++ (p.end_date.getD "") ++ "|" ++
    jvOrEmpty p.race ++ "|" ++ String.intercalate "," (p.answers.map (fun a => a.choice)))

/-- The dedup key of `fetch-data.js`:
`[pollster || "", end_date || "", race || ""].join("|").toLowerCase()`. -/
def dedupKeyFd (p : Poll) : String :=
  jsLower (jvOrEmpty p.pollster ++ "|" ++ (p.end_date.getD "") ++ "|" ++ jvOrEmpty p.race)

/-- The seen-set loop shared by both `dedup` functions: keep a record when
its key has not been seen, remembering kept keys. -/
def dedupAux (key : Poll → String) (seen : List String) : List Poll → List Poll
  | [] => []
  | p :: ps =>
    if key p ∈ seen then dedupAux key seen ps
    else p :: dedupAux key (key p :: seen) ps

/-- `dedup` of `part_001`. -/
def dedupP1 (l : List Poll) : List Poll := dedupAux dedupKeyP1 [] l

/-- `dedup` of `fetch-data.js`. -/
def dedupFd (l : List Poll) : List Poll := dedupAux dedupKeyFd [] l

/-! Concrete inputs used by witnesses and counterexamples. -/

/-- A poll-shaped table with 30 rows: five signal columns, score `265/8`. -/
def exDatasetBig : Dataset :=
  ⟨["pollster", "start", "sample", "race", "dem"], List.replicate 30 []⟩

/-- A table with meaningless column names and one row: `fetch-data-2.js`
score `2/5`. -/
def exDatasetLow : Dataset := ⟨["a", "b", "c"], [[]]⟩

/-- A record with approval-shaped and party-shaped choice labels and no
race label. -/
def exPollMixed : Poll :=
  { race := .jnull,
    answers := [⟨"Approve", 45⟩, ⟨"Disapprove", 50⟩, ⟨"Dem", 40⟩, ⟨"Rep", 42⟩] }

/-- A raw row carrying a pollster value and no numeric answer cell. -/
def exRowPollsterOnly : List (String × JVal) := [("Pollster", .jstr "Acme")]

/-- Records identical except for an answer's `pct` value. -/
def exPollPctA : Poll :=
  { pollster := .jstr "Acme", end_date := some "2026-01-05", race := .jstr "Senate",
    url := .jstr "http://example.org/a", answers := [⟨"Dem", 48⟩] }

def exPollPctB : Poll :=
  { pollster := .jstr "Acme", end_date := some "2026-01-05", race := .jstr "Senate",
    url := .jstr "http://example.org/a", answers := [⟨"Dem", 47⟩] }

/-- A record identical to `exPollPctA` except for its `url`. -/
def exPollUrlC : Poll :=
  { pollster := .jstr "Acme", end_date := some "2026-01-05", race := .jstr "Senate",
    url := .jstr "http://example.org/b", answers := [⟨"Dem", 48⟩] }

/-- Records for the C5 witness: same key fields, different pct and url. -/
def exPollWitA : Poll :=
  { pollster := .jstr "Beta", end_date := some "2026-02-01", race := .jstr "House",
    url := .jstr "http://example.org/w1", answers := [⟨"GOP", 51⟩] }

def exPollWitB : Poll :=
  { pollster := .jstr "Beta", end_date := some "2026-02-01", race := .jstr "House",
    url := .jstr "http://example.org/w2", answers := [⟨"GOP", 50⟩] }

/-- Six non-blank lines, a 5-field header, and sampled data rows of 7
fields each (more fields than the header). -/
def exCsvWide : String :=
  "a,b,c,d,e\n1,2,3,4,5,6,7\n1,2,3,4,5,6,7\n1,2,3,4,5,6,7\n1,2,3,4,5,6,7\n1,2,3,4,5,6,7"

/-- A gviz cell carrying both a raw and a formatted value. -/
def exGvizCell : GvizCell := { v := some (.jstr "48"), f := some (.jstr "48.0%") }

/-- A raw row with a parsable start date, no end date, and party answers. -/
def exRowStartOnly : List (String × JVal) :=
  [("Start Date", .jstr "1/5/2026"), ("Dem", .jstr "48"), ("Rep", .jstr "45")]

/-- The record `normalizeRowToPoll` produces from `exRowStartOnly`. -/
def exPollStart : Poll :=
  { pollster := .jnull, start_date := some "2026-01-05", end_date := some "2026-01-05",
    sample_size := none, url := .jnull, race := .jnull,
    answers := [⟨"Dem", 48⟩, ⟨"Rep", 45⟩] }

/-! Helper lemmas about the stable sort and the dedup loop. -/

theorem insertStable_ne_nil {α : Type} (keep : α → α → Bool) (x : α) (l : List α) :
    insertStable keep x l ≠ [] := by
  cases l with
  | nil => simp [insertStable]
  | cons y ys =>
    simp only [insertStable]
    split <;> simp

theorem sortStable_eq_nil {α : Type} (keep : α → α → Bool) (l : List α) :
    sortStable keep l = [] ↔ l = [] := by
  cases l with
  | nil => simp [sortStable]
  | cons x xs =>
    simp only [sortStable]
    exact ⟨fun h => absurd h (insertStable_ne_nil keep x _), fun h => by simp at h⟩

theorem sortStable_head {α : Type} :
    ∀ l : List (α × ℚ), l ≠ [] →
      ∃ b l₁ l₂, (sortStable keepDesc l).head? = some b ∧ l = l₁ ++ b :: l₂ ∧
        (∀ e ∈ l₁, e.2 < b.2) ∧ (∀ e ∈ l, e.2 ≤ b.2)
  | [], h => absurd rfl h
  | [x], _ => by
    refine ⟨x, [], [], ?_, rfl, by simp, by simp⟩
    simp [sortStable, insertStable]
  | x :: y :: xs, _ => by
    obtain ⟨b, l₁, l₂, hhead, hdec, hstrict, hmax⟩ :=
      sortStable_head (y :: xs) (by simp)
    have hsort : sortStable keepDesc (x :: y :: xs) =
        insertStable keepDesc x (sortStable keepDesc (y :: xs)) := rfl
    obtain ⟨t, ht⟩ : ∃ t, sortStable keepDesc (y :: xs) = b :: t := by
      cases hs : sortStable keepDesc (y :: xs) with
      | nil => rw [hs] at hhead; simp at hhead
      | cons h0 t0 =>
        rw [hs] at hhead
        simp only [List.head?_cons, Option.some.injEq] at hhead
        exact ⟨t0, by rw [hhead]⟩
    by_cases hk : b.2 ≤ x.2
    · refine ⟨x, [], y :: xs, ?_, rfl, by simp, ?_⟩
      · rw [hsort, ht]
        simp [insertStable, keepDesc, hk]
      · intro e he
        rcases List.mem_cons.mp he with rfl | he
        · exact le_refl _
        · exact le_trans (hmax e he) hk
    · refine ⟨b, x :: l₁, l₂, ?_, by simp [hdec], ?_, ?_⟩
      · rw [hsort, ht]
        simp [insertStable, keepDesc, hk]
      · intro e he
        rcases List.mem_cons.mp he with rfl | he
        · exact lt_of_not_ge hk
        · exact hstrict e he
      · intro e he
        rcases List.mem_cons.mp he with rfl | he
        · exact le_of_lt (lt_of_not_ge hk)
        · exact hmax e he

theorem map_split {α β : Type} (f : α → β) :
    ∀ (l₁ : List β) (l : List α) (b : β) (l₂ : List β), l.map f = l₁ ++ b :: l₂ →
      ∃ m₁ d m₂, l = m₁ ++ d :: m₂ ∧ m₁.map f = l₁ ∧ f d = b ∧ m₂.map f = l₂
  | [], l, b, l₂, h => by
    cases l with
    | nil => simp at h
    | cons a t =>
      simp only [List.map_cons, List.nil_append, List.cons.injEq] at h
      exact ⟨[], a, t, rfl, rfl, h.1, h.2⟩
  | c :: cs, l, b, l₂, h => by
    cases l with
    | nil => simp at h
    | cons a t =>
      simp only [List.map_cons, List.cons_append, List.cons.injEq] at h
      obtain ⟨m₁, d, m₂, h1, h2, h3, h4⟩ := map_split f cs t b l₂ h.2
      exact ⟨a :: m₁, d, m₂, by simp [h1], by simp [h2, h.1], h3, h4⟩

/-- Specification of the head of the score-sort used by both
`pickDataset` variants. -/
theorem pickHead_spec {score : Dataset → ℚ} {l : List Dataset} {b : Dataset × ℚ}
    (h : (sortStable keepDesc (l.map (fun d => (d, score d)))).head? = some b) :
    b.2 = score b.1 ∧ (∀ d ∈ l, score d ≤ b.2) ∧
      ∃ l₁ l₂, l = l₁ ++ b.1 :: l₂ ∧ ∀ d ∈ l₁, score d < b.2 := by
  have hne : l.map (fun d => (d, score d)) ≠ [] := by
    intro hnil
    rw [hnil] at h
    simp [sortStable] at h
  obtain ⟨b0, l₁, l₂, hhead, hdec, hstrict, hmax⟩ :=
    sortStable_head (l.map (fun d => (d, score d))) hne
  rw [h] at hhead
  obtain rfl : b = b0 := by simpa using hhead
  obtain ⟨m₁, d, m₂, hl, hm₁, hfd, _⟩ := map_split _ l₁ l b l₂ hdec
  have hb1 : b.1 = d := by rw [← hfd]
  have hb2 : b.2 = score d := by rw [← hfd]
  refine ⟨by rw [hb2, hb1], ?_, m₁, m₂, by rw [hl, hb1], ?_⟩
  · intro e he
    exact hmax (e, score e) (List.mem_map_of_mem _ he)
  · intro e he
    have : (e, score e) ∈ l₁ := by
      rw [← hm₁]
      exact List.mem_map_of_mem _ he
    exact hstrict _ this

theorem dedupAux_sublist (key : Poll → String) :
    ∀ (seen : List String) (l : List Poll), (dedupAux key seen l).Sublist l
  | _, [] => List.Sublist.refl _
  | seen, p :: ps => by
    simp only [dedupAux]
    split
    · exact (dedupAux_sublist key seen ps).cons p
    · exact (dedupAux_sublist key (key p :: seen) ps).cons₂ p

theorem dedupAux_keys (key : Poll → String) :
    ∀ (seen : List String) (l : List Poll),
      ((dedupAux key seen l).map key).Nodup ∧
        ∀ s ∈ (dedupAux key seen l).map key, s ∉ seen
  | _, [] => ⟨List.nodup_nil, by simp [dedupAux]⟩
  | seen, p :: ps => by
    simp only [dedupAux]
    split
    · exact dedupAux_keys key seen ps
    · rename_i hnin
      obtain ⟨hnd, hdisj⟩ := dedupAux_keys key (key p :: seen) ps
      constructor
      · simp only [List.map_cons, List.nodup_cons]
        exact ⟨fun hmem => (hdisj _ hmem) (List.mem_cons_self _ _), hnd⟩
      · intro s hs
        simp only [List.map_cons, List.mem_cons] at hs
        rcases hs with rfl | hs
        · exact hnin
        · exact fun hscontra => (hdisj s hs) (List.mem_cons_of_mem _ hscontra)

theorem dedupAux_fixed (key : Poll → String) :
    ∀ (seen : List String) (l : List Poll), (l.map key).Nodup →
      (∀ s ∈ l.map key, s ∉ seen) → dedupAux key seen l = l
  | _, [], _, _ => rfl
  | seen, p :: ps, hnd, hdisj => by
    have hpair : (∀ x ∈ ps, ¬key x = key p) ∧ (ps.map key).Nodup := by simpa using hnd
    have hp : key p ∉ seen := hdisj _ (by simp)
    simp only [dedupAux, if_neg hp]
    congr 1
    apply dedupAux_fixed key (key p :: seen) ps hpair.2
    intro s hs
    simp only [List.mem_cons]
    obtain ⟨x, hx, rfl⟩ := List.mem_map.mp hs
    rintro (heq | hmem)
    · exact hpair.1 x hx heq
    · exact hdisj _ (by simp [hs]) hmem

theorem dedupAux_seen_congr (key : Poll → String) :
    ∀ (l : List Poll) (seen1 seen2 : List String), (∀ s, s ∈ seen1 ↔ s ∈ seen2) →
      dedupAux key seen1 l = dedupAux key seen2 l
  | [], _, _, _ => rfl
  | p :: ps, seen1, seen2, h => by
    simp only [dedupAux]
    by_cases hp : key p ∈ seen1
    · rw [if_pos hp, if_pos ((h _).mp hp)]
      exact dedupAux_seen_congr key ps seen1 seen2 h
    · rw [if_neg hp, if_neg (fun hc => hp ((h _).mpr hc))]
      congr 1
      apply dedupAux_seen_congr key ps
      intro s
      simp only [List.mem_cons]
      exact or_congr Iff.rfl (h s)

theorem dedupAux_filter (key : Poll → String) (k : String) :
    ∀ (l : List Poll) (seen : List String),
      dedupAux key (k :: seen) l =
        dedupAux key seen (l.filter (fun q => key q != k))
  | [], _ => rfl
  | q :: qs, seen => by
    by_cases hqk : key q = k
    · simp only [dedupAux, List.filter_cons, hqk]
      simp only [List.mem_cons, true_or, if_true, bne_self_eq_false, Bool.false_eq_true,
        if_false]
      exact dedupAux_filter key k qs seen
    · by_cases hqs : key q ∈ seen
      · simp only [dedupAux, List.filter_cons]
        rw [if_pos (by simp [hqs]), if_pos (by simp [hqk]), dedupAux, if_pos hqs]
        exact dedupAux_filter key k qs seen
      · simp only [dedupAux, List.filter_cons]
        rw [if_neg (by simp [hqk, hqs]), if_pos (by simp [hqk]), dedupAux, if_neg hqs]
        congr 1
        rw [dedupAux_seen_congr key qs (key q :: k :: seen) (k :: key q :: seen)
          (by intro s; simp only [List.mem_cons]; tauto)]
        exact dedupAux_filter key k qs (key q :: seen)

/-! Claim theorems. -/

/-- C4: deduplication (`dedup` of `part_001`) is idempotent —
`dedup(dedup(x)) = dedup(x)` for every record list — it keeps the first
occurrence of each composite key (the head of the list is always kept and
every later record with the same key is dropped), and it preserves the
relative order of kept records (the output is a sublist of the input). -/
theorem dedup_idempotent_first_order :
    (∀ l, dedupP1 (dedupP1 l) = dedupP1 l) ∧
    (∀ l, (dedupP1 l).Sublist l) ∧
    (∀ p l, dedupP1 (p :: l) =
      p :: dedupP1 (l.filter (fun q => dedupKeyP1 q != dedupKeyP1 p))) := by
  refine ⟨?_, ?_, ?_⟩
  · intro l
    exact dedupAux_fixed dedupKeyP1 [] (dedupP1 l) (dedupAux_keys dedupKeyP1 [] l).1
      (by simp)
  · intro l
    exact dedupAux_sublist dedupKeyP1 [] l
  · intro p l
    show dedupAux dedupKeyP1 [] (p :: l) = _
    have h0 : dedupAux dedupKeyP1 [] (p :: l) =
        p :: dedupAux dedupKeyP1 [dedupKeyP1 p] l := by
      simp [dedupAux]
    rw [h0]
    congr 1
    exact dedupAux_filter dedupKeyP1 (dedupKeyP1 p) l []

/-- C5 counterexample: two records identical except in an answer's `pct`
value receive the same dedup key and the later one is dropped by `dedup`
(`part_001`), and likewise for two records differing only in `url` —
contradicting the claim that such records get distinct keys and are both
kept. -/
theorem dedupKey_pct_url_cex :
    dedupKeyP1 exPollPctA = dedupKeyP1 exPollPctB ∧
    dedupP1 [exPollPctA, exPollPctB] = [exPollPctA] ∧
    exPollPctA ≠ exPollPctB ∧
    dedupKeyP1 exPollPctA = dedupKeyP1 exPollUrlC ∧
    dedupP1 [exPollPctA, exPollUrlC] = [exPollPctA] ∧
    exPollPctA ≠ exPollUrlC := by
  refine ⟨?_, ?_, ?_, ?_, ?_, ?_⟩ <;> decide

/-- C5 (amended): the dedup key of `part_001` is the lowercase join of
(pollster, end date, race, the answer choice labels joined by commas) —
answer `pct` values and `url` are not part of it — so two records agreeing
on those fields always collide and only the first is kept, even when their
`pct` values or `url`s differ; the `fetch-data.js` key uses only
(pollster, end date, race). -/
theorem dedupKey_fields :
    (∀ p q : Poll, p.pollster = q.pollster → p.end_date = q.end_date → p.race = q.race →
      p.answers.map Answer.choice = q.answers.map Answer.choice →
      dedupKeyP1 p = dedupKeyP1 q ∧ dedupP1 [p, q] = [p]) ∧
    (∀ p q : Poll, p.pollster = q.pollster → p.end_date = q.end_date → p.race = q.race →
      dedupKeyFd p = dedupKeyFd q) := by
  constructor
  · intro p q h1 h2 h3 h4
    have hkey : dedupKeyP1 p = dedupKeyP1 q := by
      simp only [dedupKeyP1, h1, h2, h3]
      have : p.answers.map (fun a => a.choice) = q.answers.map (fun a => a.choice) := h4
      rw [this]
    refine ⟨hkey, ?_⟩
    simp [dedupP1, dedupAux, hkey]
  · intro p q h1 h2 h3
    simp [dedupKeyFd, h1, h2, h3]

/-- C5 witness: the amended claim applied to two concrete records that
differ in `pct` and `url` but share the key fields. -/
theorem dedupKey_fields_witness :
    dedupKeyP1 exPollWitA = dedupKeyP1 exPollWitB ∧
    dedupP1 [exPollWitA, exPollWitB] = [exPollWitA] ∧
    dedupKeyFd exPollWitA = dedupKeyFd exPollWitB :=
  ⟨(dedupKey_fields.1 exPollWitA exPollWitB (by decide) (by decide) (by decide)
      (by decide)).1,
   (dedupKey_fields.1 exPollWitA exPollWitB (by decide) (by decide) (by decide)
      (by decide)).2,
   dedupKey_fields.2 exPollWitA exPollWitB (by decide) (by decide) (by decide)⟩

/-- Evaluation helper separating the natural-number measurements of
`scoreDatasetF2` from its rational arithmetic. -/
theorem scoreDatasetF2_eval (ds : Dataset) (h n c : Nat)
    (hh : (signalsF2.countP fun w => (ds.cols.map normKeyP0).any w) = h)
    (hn : min ds.rows.length 200 = n) (hc : min ds.cols.length 60 = c) :
    scoreDatasetF2 ds = (h : ℚ) * 2 + (n : ℚ) / 10 + (c : ℚ) / 10 := by
  simp only [scoreDatasetF2]
  rw [hh, hn, hc]

/-- Evaluation helper separating the boolean and natural-number
measurements of `scoreDatasetP0` from its rational arithmetic. -/
theorem scoreDatasetP0_eval (ds : Dataset) (h n c : Nat) (p : ℚ)
    (hcols : ds.cols.isEmpty = false) (hrows : ds.rows.isEmpty = false)
    (hana : analyticsColsP0 ds.cols = false)
    (hh : hitCountP0 ds.cols = h)
    (hn : min ds.rows.length 400 = n) (hc : min ds.cols.length 80 = c)
    (hp : (if ds.rows.length < 30 then (20 : ℚ) else 0) = p) :
    scoreDatasetP0 ds = (h : ℚ) * 6 + (n : ℚ) / 12 + (c : ℚ) / 8 - p := by
  unfold scoreDatasetP0
  rw [hcols, hrows, hana, hh, hn, hc, hp]
  simp

/-- The score of the concrete low-signal table. -/
theorem scoreF2_exLow : scoreDatasetF2 exDatasetLow = 2/5 := by
  rw [scoreDatasetF2_eval exDatasetLow 0 1 3 (by decide) (by decide) (by decide)]
  norm_num

/-- The score of the concrete poll-shaped table. -/
theorem scoreP0_exBig : scoreDatasetP0 exDatasetBig = 265/8 := by
  rw [scoreDatasetP0_eval exDatasetBig 5 30 5 0 (by decide) (by decide) (by decide)
    (by decide) (by decide) (by decide) (by rw [if_neg (by decide)])]
  norm_num

/-- C1 counterexample: the `fetch-data-2.js` selector has no minimum-score
gate — on a non-empty candidate list whose best score is `2/5`, far below
the configured minimum score 14, it still returns a table rather than
"none", contradicting the claim that "none" is returned exactly when the
list is empty or the maximum score is below the threshold. -/
theorem pickDataset_no_gate_cex :
    pickDatasetF2 [exDatasetLow] = some (exDatasetLow, 2/5) ∧
    scoreDatasetF2 exDatasetLow < 14 := by
  have hpick : pickDatasetF2 [exDatasetLow] =
      some (exDatasetLow, scoreDatasetF2 exDatasetLow) := rfl
  rw [hpick, scoreF2_exLow]
  exact ⟨rfl, by norm_num⟩

/-- C1 (amended): the `part_000` selector returns the highest-scoring
table — the earliest-encountered candidate among equal top scores — and
returns "none" exactly when the candidate list is empty or the maximum
score is below `MIN_SCORE = 14`; the `fetch-data-2.js` selector performs
the same stable highest-score selection but applies no minimum-score
gate: it returns "none" exactly when the candidate list is empty. -/
theorem pickDataset_selection :
    (∀ l, pickDatasetP0 l = none ↔ l = [] ∨ ∀ d ∈ l, scoreDatasetP0 d < 14) ∧
    (∀ l b, pickDatasetP0 l = some b →
      b.2 = scoreDatasetP0 b.1 ∧ 14 ≤ b.2 ∧ (∀ d ∈ l, scoreDatasetP0 d ≤ b.2) ∧
      ∃ l₁ l₂, l = l₁ ++ b.1 :: l₂ ∧ ∀ d ∈ l₁, scoreDatasetP0 d < b.2) ∧
    (∀ l, pickDatasetF2 l = none ↔ l = []) ∧
    (∀ l b, pickDatasetF2 l = some b →
      b.2 = scoreDatasetF2 b.1 ∧ (∀ d ∈ l, scoreDatasetF2 d ≤ b.2) ∧
      ∃ l₁ l₂, l = l₁ ++ b.1 :: l₂ ∧ ∀ d ∈ l₁, scoreDatasetF2 d < b.2) := by
  refine ⟨?_, ?_, ?_, ?_⟩
  · intro l
    constructor
    · intro h
      unfold pickDatasetP0 at h
      cases hh : (sortStable keepDesc (l.map fun d => (d, scoreDatasetP0 d))).head? with
      | none =>
        left
        have h1 := List.head?_eq_none_iff.mp hh
        have h2 := (sortStable_eq_nil _ _).mp h1
        simpa using h2
      | some b =>
        rw [hh] at h
        by_cases hb : b.2 < 14
        · right
          obtain ⟨_, hmax, _⟩ := pickHead_spec hh
          intro d hd
          exact lt_of_le_of_lt (hmax d hd) hb
        · simp [hb] at h
    · rintro (rfl | hall)
      · rfl
      · unfold pickDatasetP0
        cases hh : (sortStable keepDesc (l.map fun d => (d, scoreDatasetP0 d))).head? with
        | none => rfl
        | some b =>
          obtain ⟨hs, _, l₁, l₂, hdec, _⟩ := pickHead_spec hh
          have hb1 : b.1 ∈ l := by
            rw [hdec]
            exact List.mem_append.mpr (Or.inr (List.mem_cons_self _ _))
          have hlt : b.2 < 14 := hs ▸ hall b.1 hb1
          simp [hlt]
  · intro l b h
    unfold pickDatasetP0 at h
    cases hh : (sortStable keepDesc (l.map fun d => (d, scoreDatasetP0 d))).head? with
    | none => rw [hh] at h; simp at h
    | some b0 =>
      rw [hh] at h
      by_cases hb : b0.2 < 14
      · simp [hb] at h
      · simp only [hb, if_false, Option.some.injEq] at h
        subst h
        obtain ⟨hs, hmax, l₁, l₂, hdec, hstrict⟩ := pickHead_spec hh
        exact ⟨hs, le_of_not_lt hb, hmax, l₁, l₂, hdec, hstrict⟩
  · intro l
    unfold pickDatasetF2
    rw [List.head?_eq_none_iff, sortStable_eq_nil]
    simp
  · intro l b h
    obtain ⟨hs, hmax, l₁, l₂, hdec, hstrict⟩ := pickHead_spec h
    exact ⟨hs, hmax, l₁, l₂, hdec, hstrict⟩

/-- C1 witness: the amended claim applied to a concrete singleton list
whose table scores `265/8 ≥ 14`, and to the non-empty low-scoring list
on which the `fetch-data-2.js` selector does not return "none". -/
theorem pickDataset_selection_witness :
    (265 : ℚ)/8 = scoreDatasetP0 exDatasetBig ∧ (14 : ℚ) ≤ (265 : ℚ)/8 ∧
    scoreDatasetP0 exDatasetBig ≤ (265 : ℚ)/8 ∧ pickDatasetF2 [exDatasetLow] ≠ none := by
  have hpick : pickDatasetP0 [exDatasetBig] = some (exDatasetBig, (265 : ℚ)/8) := by
    have hhead : (sortStable keepDesc
        ([exDatasetBig].map fun d => (d, scoreDatasetP0 d))).head? =
        some (exDatasetBig, scoreDatasetP0 exDatasetBig) := rfl
    unfold pickDatasetP0
    rw [hhead, scoreP0_exBig]
    show (if ((265 : ℚ)/8 < 14) then none else some (exDatasetBig, (265 : ℚ)/8)) =
      some (exDatasetBig, (265 : ℚ)/8)
    rw [if_neg (by norm_num)]
  obtain ⟨h1, h2, h3, _⟩ :=
    pickDataset_selection.2.1 [exDatasetBig] (exDatasetBig, (265 : ℚ)/8) hpick
  refine ⟨h1, h2, h3 exDatasetBig (by simp), fun hnone => ?_⟩
  have h4 := (pickDataset_selection.2.2.1 [exDatasetLow]).mp hnone
  exact List.cons_ne_nil _ _ h4

/-- C2 counterexample: a record whose choice labels contain approve,
disapprove, Dem and Rep equivalents and whose race label is blank is
assigned to `approval` by `bucketKeyFor` (`part_000`), as the claim's
step 3 demands — but `classifyPoll` (`part_001`, likewise
`fetch-data.js`), also cited by the claim, assigns it to the race bucket:
there the presence of Dem/Rep labels does prevent assignment to
approval. -/
theorem classify_order_cex :
    bucketKeyFor exPollMixed = "approval" ∧ classifyPoll exPollMixed = "race" ∧
    hasApproveChoice exPollMixed = true ∧ hasDisapproveChoice exPollMixed = true ∧
    raceGenericP0 exPollMixed = false ∧ raceApprovalP0 exPollMixed = false := by
  refine ⟨?_, ?_, ?_, ?_, ?_, ?_⟩ <;> decide

/-- C2 (amended): `bucketKeyFor` (`part_000`) follows the claimed
first-match-wins order — (1) generic-ballot race vocabulary, (2) approval
race vocabulary, (3) approve and disapprove choice labels (regardless of
any Dem/Rep labels), (4) Dem and Rep/GOP choice labels, (5) otherwise the
race bucket — but the `classifyPoll` variants (`fetch-data.js`,
`part_001`) do not: they ignore the race field, and a Dem/Rep/GOP choice
label there always prevents assignment to `approval`. -/
theorem bucket_order :
    (∀ p : Poll, raceGenericP0 p = true → bucketKeyFor p = "generic") ∧
    (∀ p : Poll, raceGenericP0 p = false → raceApprovalP0 p = true →
      bucketKeyFor p = "approval") ∧
    (∀ p : Poll, raceGenericP0 p = false → raceApprovalP0 p = false →
      hasApproveChoice p = true → hasDisapproveChoice p = true →
      bucketKeyFor p = "approval") ∧
    (∀ p : Poll, raceGenericP0 p = false → raceApprovalP0 p = false →
      (hasApproveChoice p && hasDisapproveChoice p) = false →
      hasDemChoice p = true → hasGopChoice p = true → bucketKeyFor p = "generic") ∧
    (∀ p : Poll, raceGenericP0 p = false → raceApprovalP0 p = false →
      (hasApproveChoice p && hasDisapproveChoice p) = false →
      (hasDemChoice p && hasGopChoice p) = false → bucketKeyFor p = "other") ∧
    (∀ p : Poll, (choicesLower p).contains "dem" = true ∨
      (choicesLower p).contains "rep" = true ∨ (choicesLower p).contains "gop" = true →
      classifyPoll p ≠ "approval") := by
  refine ⟨?_, ?_, ?_, ?_, ?_, ?_⟩
  · intro p h
    simp [bucketKeyFor, h]
  · intro p h1 h2
    simp [bucketKeyFor, h1, h2]
  · intro p h1 h2 h3 h4
    simp [bucketKeyFor, h1, h2, h3, h4]
  · intro p h1 h2 h3 h4 h5
    simp [bucketKeyFor, h1, h2, h3, h4, h5]
  · intro p h1 h2 h3 h4
    simp [bucketKeyFor, h1, h2, h3, h4]
  · intro p h
    simp only [classifyPoll]
    split
    · rename_i hcond
      exfalso
      simp at hcond
      rcases h with h | h | h <;> simp_all
    · split <;> simp

/-- C2 witness: the amended step-3 behaviour and the `classifyPoll`
divergence, both at the concrete mixed-label record. -/
theorem bucket_order_witness :
    bucketKeyFor exPollMixed = "approval" ∧ classifyPoll exPollMixed ≠ "approval" :=
  ⟨bucket_order.2.2.1 exPollMixed (by decide) (by decide) (by decide) (by decide),
   bucket_order.2.2.2.2.2 exPollMixed (Or.inl (by decide))⟩

/-- C3 counterexample: a raw row carrying a pollster value (`"Acme"`,
found by the pollster key lookup) but no parsed answer is discarded by
`normalizeRowToPoll` (`part_001`; `fetch-data.js` behaves the same) —
contradicting the claim that such a row is retained. -/
theorem normalizeRow_pollster_only_cex :
    normalizeRowToPollP1 exRowPollsterOnly .jnull = none ∧
    normalizeRowToPollFd exRowPollsterOnly .jnull = none ∧
    pickFirstJV exRowPollsterOnly pollsterKeysP1 = .jstr "Acme" ∧
    pickFirstJV exRowPollsterOnly pollsterKeysFd = .jstr "Acme" := by
  refine ⟨?_, ?_, ?_, ?_⟩ <;> decide

/-- C3 (amended): `normalizePollRow` (`part_000`) discards a row exactly
when it has neither a truthy pollster cell nor a parsed answer — so there
a row with a pollster value and zero parsed answers is retained — while
`normalizeRowToPoll` (`fetch-data.js`, `part_001`) discards a row exactly
when it has zero parsed answers, regardless of any pollster value. -/
theorem normalizeRow_discard :
    (∀ row m acs, normalizePollRow row m acs = none ↔
      jvTruthy (getCell row m.pollsterIdx) = false ∧ answersOfP0 row acs = []) ∧
    (∀ row hint, normalizeRowToPollP1 row hint = none ↔ answersLoopP1 row = []) ∧
    (∀ row hint, normalizeRowToPollFd row hint = none ↔ answersLoopFd row = []) := by
  refine ⟨?_, ?_, ?_⟩
  · intro row m acs
    by_cases h1 : jvTruthy (getCell row m.pollsterIdx) <;>
      by_cases h2 : answersOfP0 row acs = [] <;>
        simp [normalizePollRow, h1, h2]
  · intro row hint
    by_cases h : answersLoopP1 row = [] <;> simp [normalizeRowToPollP1, h]
  · intro row hint
    by_cases h : answersLoopFd row = [] <;> simp [normalizeRowToPollFd, h]

/-- C6 counterexample: on a gviz cell carrying both a raw value
(`v = "48"`) and a formatted string (`f = "48.0%"`), the `part_001`
extractor (and likewise `fetch-data.js`'s) returns the formatted string,
not the raw value the claim requires. -/
theorem gviz_prefers_f_cex :
    gvizCellValueP1 (some exGvizCell) = .jstr "48.0%" ∧
    gvizCellValueFd (some exGvizCell) = .jstr "48.0%" ∧
    exGvizCell.v = some (.jstr "48") ∧ JVal.jstr "48.0%" ≠ .jstr "48" := by
  refine ⟨?_, ?_, ?_, ?_⟩ <;> decide

/-- C6 (amended): the `part_000`/`fetch-data-2.js` gviz extractor prefers
the raw value field `v` — whenever `v` is present it is returned, and `f`
is consulted only when `v` is absent — while the `part_001` and
`fetch-data.js` extractors prefer the formatted field `f`: whenever `f`
holds a string it is returned, and the raw value is used only when `f` is
absent or null. -/
theorem gviz_cell_extraction :
    (∀ (cell : GvizCell) (x : JVal), cell.v = some x → gvizCellValueP0 (some cell) = x) ∧
    (∀ cell : GvizCell, cell.v = none →
      gvizCellValueP0 (some cell) = cell.f.getD .jnull) ∧
    (∀ (cell : GvizCell) (s : String), cell.f = some (.jstr s) →
      gvizCellValueP1 (some cell) = .jstr s ∧ gvizCellValueFd (some cell) = .jstr s) ∧
    (∀ (cell : GvizCell) (s : String), (cell.f = none ∨ cell.f = some .jnull) →
      cell.v = some (.jstr s) →
      gvizCellValueP1 (some cell) = .jstr s ∧ gvizCellValueFd (some cell) = .jstr s) := by
  refine ⟨?_, ?_, ?_, ?_⟩
  · intro cell x h
    simp [gvizCellValueP0, h]
  · intro cell h
    cases hf : cell.f <;> simp [gvizCellValueP0, h, hf]
  · intro cell s h
    exact ⟨by simp [gvizCellValueP1, h], by simp [gvizCellValueFd, h]⟩
  · intro cell s hf hv
    rcases hf with hf | hf <;>
      exact ⟨by simp [gvizCellValueP1, hf, hv], by simp [gvizCellValueFd, hf, hv]⟩

/-- C6 witness: both amended behaviours at the concrete two-field cell. -/
theorem gviz_cell_extraction_witness :
    gvizCellValueP0 (some exGvizCell) = .jstr "48" ∧
    gvizCellValueP1 (some exGvizCell) = .jstr "48.0%" :=
  ⟨gviz_cell_extraction.1 exGvizCell (.jstr "48") rfl,
   (gviz_cell_extraction.2.2.1 exGvizCell "48.0%" rfl).1⟩

/-- C7 counterexample: an input whose five sampled data rows each carry 7
fields against a 5-field header is accepted by `parseCSVStrict` — a
sampled row with more fields than the header does not cause rejection,
because the source's check `r.length === header.length ||
r.length >= header.length - 1` is satisfied by any longer row. -/
theorem parseCSVStrict_wide_row_cex :
    (parseCSVStrict exCsvWide).isSome = true ∧ (csvHeader exCsvWide).length = 5 ∧
    (csvTestRows exCsvWide).map List.length = [7, 7, 7, 7, 7] := by
  refine ⟨?_, ?_, ?_⟩ <;> decide

/-- C7 (amended): `parseCSVStrict` returns a table exactly when the input
is not script-like, has at least 6 non-blank lines, a header row of at
least 5 fields, and every sampled data row (the next up to 5 rows) has a
field count of at least the header's count minus one — equal, one less,
or any larger count are all accepted; rejection occurs only when a
sampled row is more than one field short of the header. -/
theorem parseCSVStrict_acceptance (text : String) :
    (parseCSVStrict text).isSome = true ↔
      isProbablyJavascript text = false ∧
      6 ≤ (csvNonEmptyLines text).length ∧
      5 ≤ (csvHeader text).length ∧
      ∀ r ∈ csvTestRows text, (csvHeader text).length - 1 ≤ r.length := by
  unfold parseCSVStrict
  by_cases h1 : isProbablyJavascript text
  · simp [h1]
  · by_cases h2 : (csvNonEmptyLines text).length < 6
    · have h2' : ¬6 ≤ (csvNonEmptyLines text).length := by omega
      simp [h1, h2, h2']
    · by_cases h3 : (csvHeader text).length < 5
      · have h3' : ¬5 ≤ (csvHeader text).length := by omega
        simp [h1, h2, h3, h3']
      · by_cases h4 : ∀ r ∈ csvTestRows text, (csvHeader text).length - 1 ≤ r.length
        · simp [h1, h2, h3, Nat.not_lt.mp h2, Nat.not_lt.mp h3]
          constructor
          · intro h r hr
            by_cases he : r.length = (csvHeader text).length
            · omega
            · exact h r hr he
          · intro h x hx _
            exact h x hx
        · have hnot : ¬∀ r ∈ csvTestRows text,
              (csvHeader text).length ≤ r.length + 1 := by
            intro hc
            apply h4
            intro r hr
            have := hc r hr
            omega
          simp [h1, h2, h3]
          constructor
          · intro h
            exfalso
            apply hnot
            intro r hr
            by_cases he : r.length = (csvHeader text).length
            · omega
            · exact h r hr he
          · rintro ⟨_, _, hall⟩
            exact absurd (fun r hr => hall r hr) hnot

/-- C8: date parsing (`toISODateMaybe` of `fetch-data.js` / `part_001`)
maps `"2026-01-28"` to `"2026-01-28"`, `"1/28/2026"` to `"2026-01-28"`,
and `"not a date"` to null; and, as a total function into an optional
result, it never throws on any input.  (The `parseDateToISO` variants of
`part_000` / `fetch-data-2.js` hand `"1/28/2026"` to the host date parser
first, whose rendering is timezone-dependent; the claim is settled against
the deterministic regex-first `toISODateMaybe`.) -/
theorem toISODateMaybe_examples :
    toISODateMaybe (.jstr "2026-01-28") = some "2026-01-28" ∧
    toISODateMaybe (.jstr "1/28/2026") = some "2026-01-28" ∧
    toISODateMaybe (.jstr "not a date") = none ∧
    ∀ v : JVal, toISODateMaybe v = none ∨ ∃ s, toISODateMaybe v = some s := by
  refine ⟨by decide, by decide, by decide, ?_⟩
  intro v
  cases h : toISODateMaybe v with
  | none => exact Or.inl rfl
  | some s => exact Or.inr ⟨s, rfl⟩

/-- C9 counterexample: a one-column table with zero rows takes the `-1`
empty sentinel and outscores the same table with one row (whose penalized
score is `-475/24`), so more rows does not score strictly higher below the
cap; and two analytics-named tables with different positive row counts
both take the `-10` sentinel and score equal. -/
theorem score_more_rows_cex :
    scoreDatasetP0 ⟨["a"], [[.jstr "x"]]⟩ < scoreDatasetP0 ⟨["a"], []⟩ ∧
    scoreDatasetP0 ⟨["analytics"], [[]]⟩ = scoreDatasetP0 ⟨["analytics"], [[], []]⟩ := by
  constructor
  · have h1 : scoreDatasetP0 ⟨["a"], []⟩ = -1 := by decide
    have h2 := scoreDatasetP0_eval ⟨["a"], [[.jstr "x"]]⟩ 0 1 1 20 (by decide) (by decide)
      (by decide) (by decide) (by decide) (by decide) (by rw [if_pos (by decide)])
    rw [h1, h2]
    norm_num
  · have e1 : scoreDatasetP0 ⟨["analytics"], [[]]⟩ = -10 := by decide
    have e2 : scoreDatasetP0 ⟨["analytics"], [[], []]⟩ = -10 := by decide
    rw [e1, e2]

/-- C9 (amended): the `part_000` scorer is invariant under any permutation
of a table's rows; and for two tables identical except in row count —
provided the table has at least one column, its column names do not
trigger the analytics sentinel, and both row counts are positive and at
most the bonus cap 400 — the one with more rows scores strictly higher.
(Positivity is forced by the `-1` empty-table sentinel and the analytics
exclusion by the `-10` sentinel, as the counterexample shows.) -/
theorem score_row_monotone :
    (∀ d d' : Dataset, d.cols = d'.cols → d.rows.Perm d'.rows →
      scoreDatasetP0 d = scoreDatasetP0 d') ∧
    (∀ (c : List String) (r1 r2 : List (List JVal)), c ≠ [] →
      analyticsColsP0 c = false → r1 ≠ [] → r1.length < r2.length →
      r2.length ≤ 400 → scoreDatasetP0 ⟨c, r1⟩ < scoreDatasetP0 ⟨c, r2⟩) := by
  constructor
  · rintro ⟨c, r⟩ ⟨c', r'⟩ hc hp
    simp only at hc hp
    subst hc
    have hlen : r.length = r'.length := hp.length_eq
    have hemp : r.isEmpty = r'.isEmpty := by
      cases r <;> cases r' <;> simp_all [List.Perm.nil_eq]
    unfold scoreDatasetP0
    simp only
    rw [hlen, hemp]
  · intro c r1 r2 hc hana h1 hlt hcap
    have hc' : c.isEmpty = false := by
      cases c with
      | nil => exact absurd rfl hc
      | cons a as => rfl
    have h1' : r1.isEmpty = false := by
      cases r1 with
      | nil => exact absurd rfl h1
      | cons x xs => rfl
    have h2' : r2.isEmpty = false := by
      cases r2 with
      | nil => simp at hlt
      | cons y ys => rfl
    rw [scoreDatasetP0_eval ⟨c, r1⟩ (hitCountP0 c) (min r1.length 400) (min c.length 80)
      (if r1.length < 30 then 20 else 0) hc' h1' hana rfl rfl rfl rfl]
    rw [scoreDatasetP0_eval ⟨c, r2⟩ (hitCountP0 c) (min r2.length 400) (min c.length 80)
      (if r2.length < 30 then 20 else 0) hc' h2' hana rfl rfl rfl rfl]
    have e1 : min r1.length 400 = r1.length := Nat.min_eq_left (by omega)
    have e2 : min r2.length 400 = r2.length := Nat.min_eq_left hcap
    rw [e1, e2]
    have hq : (r1.length : ℚ) < (r2.length : ℚ) := by exact_mod_cast hlt
    have hdiv : (r1.length : ℚ) / 12 < (r2.length : ℚ) / 12 :=
      (div_lt_div_iff_of_pos_right (by norm_num)).mpr hq
    by_cases p1 : r1.length < 30 <;> by_cases p2 : r2.length < 30
    · rw [if_pos p1, if_pos p2]
      linarith
    · rw [if_pos p1, if_neg p2]
      linarith
    · omega
    · rw [if_neg p1, if_neg p2]
      linarith

/-- C9 witness: the amended claim applied to concrete one-column tables —
permutation invariance at a two-row swap, and strict growth from one row
to two. -/
theorem score_row_monotone_witness :
    scoreDatasetP0 ⟨["a"], [[], [.jstr "x"]]⟩ = scoreDatasetP0 ⟨["a"], [[.jstr "x"], []]⟩ ∧
    scoreDatasetP0 ⟨["a"], [[.jstr "x"]]⟩ < scoreDatasetP0 ⟨["a"], [[], []]⟩ :=
  ⟨score_row_monotone.1 ⟨["a"], [[], [.jstr "x"]]⟩ ⟨["a"], [[.jstr "x"], []]⟩ rfl
      (List.Perm.swap _ _ _),
   score_row_monotone.2 ["a"] [[.jstr "x"]] [[], []] (by simp) (by decide) (by simp)
      (by decide) (by decide)⟩

/-! Helper lemmas about the JS `||` chains of the date fields. -/

theorem jsOrStr_none_arg (a : Option String) (h : jsOrStr a none = none) :
    a = none ∨ a = some "" := by
  cases a with
  | none => exact Or.inl rfl
  | some s =>
    by_cases hs : s = ""
    · exact Or.inr (by rw [hs])
    · simp [jsOrStr, hs] at h

theorem jsOrStr_ne_blank (a b : Option String) (hb : b ≠ some "") :
    jsOrStr a b ≠ some "" := by
  cases a with
  | none => simpa [jsOrStr] using hb
  | some s =>
    by_cases hs : s = ""
    · simpa [jsOrStr, hs] using hb
    · simp [jsOrStr, hs]

theorem jsOrStr_none_id (a : Option String) (ha : a ≠ some "") :
    jsOrStr a none = a := by
  cases a with
  | none => rfl
  | some s =>
    have hs : s ≠ "" := fun h => ha (by rw [h])
    simp [jsOrStr, hs]

theorem jsOrStr_eq_none (a b : Option String) (h : jsOrStr a b = none) : b = none := by
  cases a with
  | none => exact h
  | some s =>
    by_cases hs : s = ""
    · simpa [jsOrStr, hs] using h
    · simp [jsOrStr, hs] at h

/-- The date fields of a retained `part_001` record, as the `||` chains
the source computes them. -/
theorem normalizeRowToPollP1_dates (row : List (String × JVal)) (hint : JVal) (p : Poll)
    (h : normalizeRowToPollP1 row hint = some p) :
    p.start_date = jsOrStr (toISODateMaybe (pickFirstJV row startKeysA))
      (jsOrStr (toISODateMaybe (pickFirstJV row startKeysB)) none) ∧
    p.end_date = jsOrStr (toISODateMaybe (pickFirstJV row endKeysA))
      (jsOrStr (toISODateMaybe (pickFirstJV row endKeysB))
        (jsOrStr p.start_date none)) := by
  simp only [normalizeRowToPollP1] at h
  split at h
  · simp at h
  · injection h with h
    subst h
    exact ⟨rfl, rfl⟩

/-- The date fields of a retained `fetch-data.js` record. -/
theorem normalizeRowToPollFd_dates (row : List (String × JVal)) (hint : JVal) (p : Poll)
    (h : normalizeRowToPollFd row hint = some p) :
    p.start_date = jsOrStr (toISODateMaybe (pickFirstJV row startKeysA))
      (jsOrStr (toISODateMaybe (pickFirstJV row startKeysB)) none) ∧
    p.end_date = jsOrStr (toISODateMaybe (pickFirstJV row endKeysA))
      (jsOrStr (toISODateMaybe (pickFirstJV row endKeysB))
        (jsOrStr p.start_date none)) := by
  simp only [normalizeRowToPollFd] at h
  split at h
  · simp at h
  · injection h with h
    subst h
    exact ⟨rfl, rfl⟩

/-- The computed start date is never the (falsy) empty string. -/
theorem startDate_ne_blank (row : List (String × JVal)) :
    jsOrStr (toISODateMaybe (pickFirstJV row startKeysA))
      (jsOrStr (toISODateMaybe (pickFirstJV row startKeysB)) none) ≠ some "" :=
  jsOrStr_ne_blank _ _ (jsOrStr_ne_blank _ _ (by simp))

/-- C10: in `normalizeRowToPoll` (`fetch-data.js` and `part_001` alike),
when neither end-date pick parses to a date, a retained record's end date
equals its start date; consequently the end date is null only when the
start date is also null. -/
theorem endDate_fallback :
    (∀ row hint p, normalizeRowToPollP1 row hint = some p →
      toISODateMaybe (pickFirstJV row endKeysA) = none →
      toISODateMaybe (pickFirstJV row endKeysB) = none →
      p.end_date = p.start_date) ∧
    (∀ row hint p, normalizeRowToPollP1 row hint = some p → p.end_date = none →
      p.start_date = none) ∧
    (∀ row hint p, normalizeRowToPollFd row hint = some p →
      toISODateMaybe (pickFirstJV row endKeysA) = none →
      toISODateMaybe (pickFirstJV row endKeysB) = none →
      p.end_date = p.start_date) ∧
    (∀ row hint p, normalizeRowToPollFd row hint = some p → p.end_date = none →
      p.start_date = none) := by
  have main : ∀ (row : List (String × JVal)) (p : Poll),
      (p.start_date = jsOrStr (toISODateMaybe (pickFirstJV row startKeysA))
        (jsOrStr (toISODateMaybe (pickFirstJV row startKeysB)) none)) →
      (p.end_date = jsOrStr (toISODateMaybe (pickFirstJV row endKeysA))
        (jsOrStr (toISODateMaybe (pickFirstJV row endKeysB))
          (jsOrStr p.start_date none))) →
      (toISODateMaybe (pickFirstJV row endKeysA) = none →
        toISODateMaybe (pickFirstJV row endKeysB) = none →
        p.end_date = p.start_date) ∧
      (p.end_date = none → p.start_date = none) := by
    intro row p hs he
    have hsb : p.start_date ≠ some "" := hs ▸ startDate_ne_blank row
    constructor
    · intro he1 he2
      rw [he, he1, he2]
      show jsOrStr p.start_date none = p.start_date
      exact jsOrStr_none_id _ hsb
    · intro hnone
      rw [he] at hnone
      have h2 := jsOrStr_eq_none _ _ hnone
      have h3 := jsOrStr_eq_none _ _ h2
      rcases jsOrStr_none_arg _ h3 with h4 | h4
      · exact h4
      · exact absurd h4 hsb
  refine ⟨?_, ?_, ?_, ?_⟩
  · intro row hint p h he1 he2
    obtain ⟨hs, he⟩ := normalizeRowToPollP1_dates row hint p h
    exact (main row p hs he).1 he1 he2
  · intro row hint p h hnone
    obtain ⟨hs, he⟩ := normalizeRowToPollP1_dates row hint p h
    exact (main row p hs he).2 hnone
  · intro row hint p h he1 he2
    obtain ⟨hs, he⟩ := normalizeRowToPollFd_dates row hint p h
    exact (main row p hs he).1 he1 he2
  · intro row hint p h hnone
    obtain ⟨hs, he⟩ := normalizeRowToPollFd_dates row hint p h
    exact (main row p hs he).2 hnone

/-- C10 witness: the fallback at a concrete row whose start date parses
(`"1/5/2026"`) and whose end-date picks are null, in both variants. -/
theorem endDate_fallback_witness :
    normalizeRowToPollP1 exRowStartOnly .jnull = some exPollStart ∧
    normalizeRowToPollFd exRowStartOnly .jnull = some exPollStart ∧
    exPollStart.end_date = exPollStart.start_date ∧
    exPollStart.start_date = some "2026-01-05" := by
  have h1 : normalizeRowToPollP1 exRowStartOnly .jnull = some exPollStart := by decide
  have h2 : normalizeRowToPollFd exRowStartOnly .jnull = some exPollStart := by decide
  refine ⟨h1, h2, ?_, by decide⟩
  exact endDate_fallback.1 exRowStartOnly .jnull exPollStart h1 (by decide) (by decide)

end Polls
